import Mathlib

/-!
Verification of the ip-country-api core: a shallow embedding of the
provider API client (`src/services/api-client.js`), its ipxapi variant
(`src/services/api-client-ipxapi.js`) and the client orchestrator
(`src/services/api-client-orchestrator.js`), together with theorems
checking the natural-language specification against the code.

Modelling conventions:
- JS `Map<string, string>` becomes an association list with unique keys;
  `set` updates in place or appends, matching insertion-order semantics.
- `Date.now()` becomes an explicit `now : Nat` parameter, one value per
  synchronous call (the code never awaits between clock reads that matter).
- JS truthiness on optional strings/numbers is modelled explicitly:
  `undefined`, `""` and `0` are falsy.  `rateLimitExpiry` is a `Nat` with
  `0` playing the role of "unset", exactly matching the code's
  `!this._rateLimitExpiry` check.
- The upstream `fetch` is an explicit oracle argument (`Upstream`):
  a rejected fetch, or a response together with a body that either
  parses or rejects.
- Thrown errors become values of type `Failure`; the `catch` block of
  `getCountry` is the place where they are converted into envelopes.
-/

/-- JS truthiness of an optional string: undefined and the empty string are falsy. -/
def jsTruthyStr : Option String → Bool
  | none => false
  | some s => if s = "" then false else true

/-- JS expression a or-else d for optional strings, with "" falsy. -/
def jsOrStr (a : Option String) (d : String) : String :=
  match a with
  | none => d
  | some s => if s = "" then d else s

/-- JS expression a or-else d for optional numbers, with 0 falsy. -/
def jsOrNat (a : Option Nat) (d : Nat) : Nat :=
  match a with
  | none => d
  | some n => if n = 0 then d else n

/-- A JS `Map<string, string>` as an insertion-ordered association list. -/
abbrev CacheMap := List (String × String)

/-- JS `Map.get`: the value stored at a key, if present. -/
def mapGet : CacheMap → String → Option String
  | [], _ => none
  | p :: m, k => if p.1 = k then some p.2 else mapGet m k

/-- JS `Map.set`: update the entry in place when the key exists, append otherwise. -/
def mapSet : CacheMap → String → String → CacheMap
  | [], k, v => [(k, v)]
  | p :: m, k, v => if p.1 = k then (k, v) :: m else p :: mapSet m k v

/-- JS `new Map([...a, ...b])`: entries of `b` are set after those of `a`,
so on a key collision the entry from `b` wins. -/
def mapMerge (a b : CacheMap) : CacheMap :=
  b.foldl (fun acc p => mapSet acc p.1 p.2) a

/-- A map representable by a JS `Map`: its keys are pairwise distinct. -/
def nodupKeys (m : CacheMap) : Prop := (m.map Prod.fst).Nodup

instance (m : CacheMap) : Decidable (nodupKeys m) := by
  unfold nodupKeys; infer_instance

/-- A thrown JS error: an `ApiError` (which always carries a numeric status,
normalized by its constructor) or a plain `Error` with no status field. -/
inductive Failure where
  | api (message : String) (status : Nat)
  | plain (message : String)
deriving Repr, DecidableEq

/-- The `ApiError` constructor: `this.status = info && info.status || 400`,
so a missing or zero status becomes 400. -/
def mkApiError (message : String) (status : Nat) : Failure :=
  Failure.api message (if status = 0 then 400 else status)

/-- The `message` property of a thrown error. -/
def failureMessage : Failure → String
  | .api m _ => m
  | .plain m => m

/-- The `status` property of a thrown error (absent on plain errors). -/
def failureStatus : Failure → Option Nat
  | .api _ st => some st
  | .plain _ => none

/-- The logging guard in getCountry's catch block:
`!error.status || error.status >= 500`. -/
def shouldLog (f : Failure) : Bool :=
  match f with
  | .plain _ => true
  | .api _ st => if st = 0 then true else decide (500 ≤ st)

/-- The `error` field of a payload handed to `formatResult`. -/
structure ErrorField where
  message : String
  status : Option Nat
deriving Repr, DecidableEq

/-- The argument of `formatResult`: the four destructured meta fields, the
optional error, and the remaining (`...result`) data fields. -/
structure Payload where
  apiUrl : Option String := none
  cache : Bool := false
  rateLimit : Option Nat := none
  rateLimitCount : Option Nat := none
  error : Option ErrorField := none
  rest : List (String × String) := []
deriving Repr, DecidableEq

/-- The `meta` object of a result envelope. -/
structure Meta where
  apiUrl : Option String
  cache : Option Bool
  rateLimit : Option Nat
  rateLimitCount : Option Nat
  status : Nat
deriving Repr, DecidableEq

/-- The normalized result envelope returned by `formatResult`. -/
structure Envelope where
  data : Option (List (String × String))
  error : Option String
  meta : Meta
deriving Repr, DecidableEq

/-- The exported `formatResult` function of `api-client.js`. -/
def formatResult (p : Payload) : Envelope :=
  match p.error with
  | some e =>
      { data := none
        error := some e.message
        meta := { apiUrl := p.apiUrl, cache := none, rateLimit := p.rateLimit,
                  rateLimitCount := p.rateLimitCount, status := jsOrNat e.status 400 } }
  | none =>
      { data := some p.rest
        error := none
        meta := { apiUrl := p.apiUrl, cache := some p.cache, rateLimit := p.rateLimit,
                  rateLimitCount := p.rateLimitCount, status := 200 } }

/-- DEFAULT_RATE_LIMIT_TIMEFRAME from `config.js` (one hour in milliseconds). -/
def DEFAULT_RATE_LIMIT_TIMEFRAME : Nat := 3600000

/-- The mutable state of an `ApiClient` instance. -/
structure ClientState where
  baseUrl : String
  token : String
  rateLimit : Nat
  rateLimitCount : Nat
  rateLimitExpiry : Nat
  rateLimitTimeframe : Nat
  cache : CacheMap
deriving Repr, DecidableEq

/-- The `ApiClient` constructor on well-typed options (a falsy, i.e. zero,
`rateLimitTimeframe` keeps the default, matching `if (rateLimitTimeframe)`). -/
def mkClient (baseUrl token : String) (rateLimit : Nat) (rateLimitTimeframe : Option Nat) :
    ClientState :=
  { baseUrl := baseUrl, token := token, rateLimit := rateLimit,
    rateLimitCount := 0, rateLimitExpiry := 0,
    rateLimitTimeframe := jsOrNat rateLimitTimeframe DEFAULT_RATE_LIMIT_TIMEFRAME,
    cache := [] }

/-- The method isRateLimitExpired: `!this._rateLimitExpiry || Date.now() > this._rateLimitExpiry`. -/
def isRateLimitExpired (s : ClientState) (now : Nat) : Bool :=
  if s.rateLimitExpiry = 0 then true else decide (s.rateLimitExpiry < now)

/-- The getter isRateLimited. -/
def isRateLimited (s : ClientState) (now : Nat) : Bool :=
  if isRateLimitExpired s now then false
  else decide (s.rateLimit ≤ s.rateLimitCount)

/-- The method `formatResult` of the class: the payload with the instance's
rate-limit counters spliced in. -/
def clientFormatResult (s : ClientState) (p : Payload) : Envelope :=
  formatResult { p with rateLimit := some s.rateLimit,
                        rateLimitCount := some s.rateLimitCount }

/-- The method handleRateLimiting: resets the window when expired, then either
throws `Rate limited` (429) or increments the counter.  Returns the state as
mutated so far together with the thrown error, if any. -/
def handleRateLimiting (s : ClientState) (now : Nat) : ClientState × Option Failure :=
  let s1 := if isRateLimitExpired s now then
      { s with rateLimitExpiry := now + s.rateLimitTimeframe, rateLimitCount := 0 }
    else s
  if isRateLimited s1 now then (s1, some (mkApiError "Rate limited" 429))
  else ({ s1 with rateLimitCount := s1.rateLimitCount + 1 }, none)

/-- The shape of an HTTP response the core depends on. -/
structure HttpResponse where
  ok : Bool
  status : Nat
  statusText : String
deriving Repr, DecidableEq

/-- The `error` object of an ipstack-style JSON result. -/
structure ProviderError where
  info : Option String
  type : Option String
deriving Repr, DecidableEq

/-- A JSON body from either provider, with the fields the code reads. -/
structure ApiResult where
  error : Option ProviderError := none
  country_name : Option String := none
  success : Option Bool := none
  message : Option String := none
  country : Option String := none
deriving Repr, DecidableEq

/-- The behaviour of the upstream fetch for one call: the promise rejects,
or it resolves with a response whose `json()` either rejects or yields a body. -/
inductive Upstream where
  | reject (msg : String)
  | response (resp : HttpResponse) (body : Except String ApiResult)
deriving Repr

/-- The provider-specific extension points of `ApiClient`
(overridden by `ApiClientIpxapi`). -/
structure Provider where
  getCountryApiUrl : ClientState → String → String
  validateResult : ApiResult → Option Failure
  getCountryNameFromResult : ApiResult → Option String

/-- The base `ApiClient` specialization (ipstack). -/
def ipstackProvider : Provider where
  getCountryApiUrl := fun s ip => s.baseUrl ++ "/" ++ ip ++ "?access_key=" ++ s.token
  validateResult := fun r =>
    match r.error with
    | some e =>
        some (mkApiError (jsOrStr e.info (jsOrStr e.type "An unknown error occurred"))
          (if e.type = some "invalid_access_key" then 401 else 400))
    | none => none
  getCountryNameFromResult := fun r => r.country_name

/-- The `ApiClientIpxapi` specialization. -/
def ipxapiProvider : Provider where
  getCountryApiUrl := fun s ip => s.baseUrl ++ "/ip?ip=" ++ ip
  validateResult := fun r =>
    if r.success = some false then
      some (mkApiError (jsOrStr r.message "An unknown error occurred") 400)
    else none
  getCountryNameFromResult := fun r => r.country

/-- The observable outcome of one `getCountry` call: the state after the call,
the returned envelope, whether an upstream request was issued, the failure the
catch block caught (if any), and whether it was logged. -/
structure GetCountryOut where
  state : ClientState
  result : Envelope
  fetched : Bool
  caught : Option Failure
  logged : Bool
deriving Repr

/-- The catch block of `getCountry`: log if the status is falsy or at least
500, then return `formatResult({ apiUrl, error })` on the current state. -/
def errorReturn (s : ClientState) (apiUrl : String) (f : Failure) (fetched : Bool) :
    GetCountryOut :=
  { state := s
    result := clientFormatResult s
      { apiUrl := some apiUrl,
        error := some { message := failureMessage f, status := failureStatus f } }
    fetched := fetched
    caught := some f
    logged := shouldLog f }

/-- The method `getCountry`, with the clock and the upstream behaviour as
explicit oracles. -/
def getCountry (P : Provider) (s : ClientState) (ip : String) (now : Nat)
    (up : Upstream) : GetCountryOut :=
  let apiUrl := P.getCountryApiUrl s ip
  let cached := mapGet s.cache ip
  if jsTruthyStr cached then
    { state := s
      result := clientFormatResult s { cache := true, rest := [("name", cached.getD "")] }
      fetched := false, caught := none, logged := false }
  else
    match handleRateLimiting s now with
    | (s1, some f) => errorReturn s1 apiUrl f false
    | (s1, none) =>
      match up with
      | .reject msg => errorReturn s1 apiUrl (Failure.plain msg) true
      | .response resp body =>
        if resp.ok = false then
          errorReturn s1 apiUrl
            (mkApiError (toString resp.status ++ " " ++ resp.statusText) resp.status) true
        else
          match body with
          | .error msg => errorReturn s1 apiUrl (Failure.plain msg) true
          | .ok r =>
            match P.validateResult r with
            | some f => errorReturn s1 apiUrl f true
            | none =>
              let name := P.getCountryNameFromResult r
              if jsTruthyStr name = false then
                errorReturn s1 apiUrl (mkApiError "Country not found for this IP" 400) true
              else
                let nm := name.getD ""
                let s2 := { s1 with cache := mapSet s1.cache ip nm }
                { state := s2
                  result := clientFormatResult s2 { apiUrl := some apiUrl, rest := [("name", nm)] }
                  fetched := true, caught := none, logged := false }

/-- The method transferCache: `this._cache = new Map([...this._cache, ...apiClient.cache])`. -/
def transferCache (receiver source : ClientState) : ClientState :=
  { receiver with cache := mapMerge receiver.cache source.cache }

/-- The state of an `ApiClientOrchestrator`: the client list and which of them
is the active one (the JS object holds references, modelled by an index). -/
structure OrchState where
  apiClients : List ClientState
  activeIdx : Nat
deriving Repr

/-- A placeholder client used only as the default of out-of-range list reads,
which well-formed orchestrator states never perform. -/
def dummyClient : ClientState :=
  { baseUrl := "", token := "", rateLimit := 0, rateLimitCount := 0,
    rateLimitExpiry := 0, rateLimitTimeframe := DEFAULT_RATE_LIMIT_TIMEFRAME, cache := [] }

/-- The getter `apiClient` of the orchestrator: keep the active client when it
is not rate limited, otherwise switch to the first non-limited client (merging
the active client's cache into it), otherwise keep the active client.  Returns
the new orchestrator state and the index of the returned client. -/
def orchApiClient (o : OrchState) (now : Nat) : OrchState × Nat :=
  let active := o.apiClients.getD o.activeIdx dummyClient
  if isRateLimited active now = false then (o, o.activeIdx)
  else
    match o.apiClients.findIdx? (fun c => isRateLimited c now = false) with
    | none => (o, o.activeIdx)
    | some i =>
      let q := o.apiClients.getD i dummyClient
      let q2 := transferCache q active
      ({ apiClients := o.apiClients.set i q2, activeIdx := i }, i)

/-- One `getCountry` call in a call sequence: its IP, its clock reading and
its upstream behaviour. -/
structure Call where
  ip : String
  now : Nat
  up : Upstream

/-- Runs a sequence of `getCountry` calls, threading the client state. -/
def runCalls (P : Provider) (s : ClientState) (cs : List Call) : ClientState :=
  cs.foldl (fun st c => (getCountry P st c.ip c.now c.up).state) s

/-! ### Concrete instances used by counterexamples and witnesses -/

/-- Receiver client for the C1 instance: its cache maps 1.1.1.1 to X. -/
def c1Receiver : ClientState :=
  { baseUrl := "http://api.ipstack.com", token := "abc", rateLimit := 5, rateLimitCount := 0,
    rateLimitExpiry := 0, rateLimitTimeframe := 3600000, cache := [("1.1.1.1", "X")] }

/-- Source client for the C1 instance: its cache maps the same IP to Y. -/
def c1Source : ClientState :=
  { c1Receiver with cache := [("1.1.1.1", "Y")] }

/-- Error payload instance for the C10 witness, mirroring the repository's
unit test. -/
def c10ErrPayload : Payload :=
  { apiUrl := some "https://www.foo.software",
    error := some { message := "Unauthorized", status := some 401 } }

/-- Success payload instance for the C10 witness, mirroring the repository's
unit test. -/
def c10OkPayload : Payload :=
  { cache := true, rateLimit := some 5, rateLimitCount := some 1,
    rest := [("country", "United States")] }

/-- A failure that, if it is an ApiError, carries a nonzero status (true of
every ApiError the code constructs, since the constructor turns 0 into 400). -/
def apiStatusNonzero (f : Failure) : Prop :=
  ∀ m st, f = Failure.api m st → st ≠ 0

/-- Client in an active window with its budget exhausted, for witnesses. -/
def limitedClient : ClientState :=
  { baseUrl := "http://api.ipstack.com", token := "tok", rateLimit := 1, rateLimitCount := 1,
    rateLimitExpiry := 100, rateLimitTimeframe := 60000, cache := [("8.8.8.8", "US")] }

/-- Client inside an active window with remaining budget, for witnesses. -/
def windowClient : ClientState :=
  { baseUrl := "http://api.ipstack.com", token := "tok", rateLimit := 5, rateLimitCount := 1,
    rateLimitExpiry := 1000, rateLimitTimeframe := 3600000, cache := [] }

/-- The 403 response used in the C8 witness. -/
def forbiddenResp : HttpResponse := { ok := false, status := 403, statusText := "Forbidden" }

/-- A 200 response used in the C8 witness. -/
def okResp : HttpResponse := { ok := true, status := 200, statusText := "OK" }

/-- An ipstack invalid-access-key error object, as in the repository's test. -/
def invalidKeyError : ProviderError :=
  { info := some "Invalid access key", type := some "invalid_access_key" }

/-- An ipstack body carrying the invalid-access-key error. -/
def invalidKeyResult : ApiResult := { error := some invalidKeyError }

/-- An ipxapi body signalling failure. -/
def ipxapiFailResult : ApiResult := { success := some false, message := some "bad key" }

/-- First call of the C3 witness scenario. -/
def c3first : Call := { ip := "1.1.1.1", now := 5, up := Upstream.reject "x" }

/-- Over-budget call of the C3 witness scenario. -/
def c3last : Call := { ip := "2.2.2.2", now := 6, up := Upstream.reject "x" }

/-! ### Association-list (JS Map) lemmas -/

theorem mapGet_mapSet_self (m : CacheMap) (k v : String) :
    mapGet (mapSet m k v) k = some v := by
  induction m with
  | nil => simp [mapGet, mapSet]
  | cons p m ih =>
    by_cases h : p.1 = k
    · simp [mapGet, mapSet, h]
    · simp [mapGet, mapSet, h, ih]

theorem mapGet_mapSet_ne (m : CacheMap) (k v : String) (k' : String) (h : k' ≠ k) :
    mapGet (mapSet m k v) k' = mapGet m k' := by
  have hkk : ¬ (k = k') := fun hk => h hk.symm
  induction m with
  | nil => simp [mapGet, mapSet, hkk]
  | cons p m ih =>
    by_cases hp : p.1 = k
    · have hpk : ¬ (p.1 = k') := by rw [hp]; exact hkk
      simp [mapGet, mapSet, hp, hkk, hpk]
    · by_cases hp' : p.1 = k'
      · simp [mapGet, mapSet, hp, hp', h]
      · simp [mapGet, mapSet, hp, hp', ih]

theorem mapGet_eq_none_of_not_mem (m : CacheMap) (k : String)
    (h : k ∉ m.map Prod.fst) : mapGet m k = none := by
  induction m with
  | nil => simp [mapGet]
  | cons p m ih =>
    simp only [List.map_cons, List.mem_cons] at h
    push_neg at h
    have hp : ¬ (p.1 = k) := fun hk => h.1 hk.symm
    simp [mapGet, hp, ih h.2]

theorem mapMerge_get_of_get_eq_none : ∀ (b a : CacheMap) (k : String),
    mapGet b k = none → mapGet (mapMerge a b) k = mapGet a k := by
  intro b
  induction b with
  | nil => intro a k _; rfl
  | cons p b ih =>
    intro a k h
    simp only [mapGet] at h
    by_cases hp : p.1 = k
    · simp [hp] at h
    · simp only [hp, if_false] at h
      show mapGet (mapMerge (mapSet a p.1 p.2) b) k = mapGet a k
      rw [ih _ _ h, mapGet_mapSet_ne _ _ _ _ (Ne.symm hp)]

theorem mapMerge_get_of_get_eq_some : ∀ (b a : CacheMap) (k v : String),
    nodupKeys b → mapGet b k = some v → mapGet (mapMerge a b) k = some v := by
  intro b
  induction b with
  | nil => intro a k v _ h; simp [mapGet] at h
  | cons p b ih =>
    intro a k v hb h
    simp only [nodupKeys, List.map_cons, List.nodup_cons] at hb
    by_cases hp : p.1 = k
    · simp only [mapGet, hp, if_true] at h
      have hbk : mapGet b k = none := by
        apply mapGet_eq_none_of_not_mem
        rw [← hp]; exact hb.1
      show mapGet (mapMerge (mapSet a p.1 p.2) b) k = some v
      rw [mapMerge_get_of_get_eq_none _ _ _ hbk, hp, mapGet_mapSet_self, h]
    · simp only [mapGet, hp, if_false] at h
      exact ih _ _ _ hb.2 h

theorem mapMerge_get_isSome_right : ∀ (b a : CacheMap) (k : String),
    (mapGet b k).isSome → (mapGet (mapMerge a b) k).isSome := by
  intro b
  induction b with
  | nil => intro a k h; simp [mapGet] at h
  | cons p b ih =>
    intro a k h
    by_cases hp : p.1 = k
    · show (mapGet (mapMerge (mapSet a p.1 p.2) b) k).isSome
      rcases hbk : mapGet b k with _ | w
      · rw [mapMerge_get_of_get_eq_none _ _ _ hbk, hp, mapGet_mapSet_self]; rfl
      · exact ih _ _ (by rw [hbk]; rfl)
    · simp only [mapGet, hp, if_false] at h
      exact ih _ _ h

theorem mapMerge_get_isSome_left (a b : CacheMap) (k : String)
    (h : (mapGet a k).isSome) : (mapGet (mapMerge a b) k).isSome := by
  rcases hbk : mapGet b k with _ | w
  · rw [mapMerge_get_of_get_eq_none _ _ _ hbk]; exact h
  · exact mapMerge_get_isSome_right b a k (by rw [hbk]; rfl)

/-! ### Rate-limiting helper lemmas -/

theorem isRateLimitExpired_false (s : ClientState) (now : Nat)
    (h1 : s.rateLimitExpiry ≠ 0) (h2 : now ≤ s.rateLimitExpiry) :
    isRateLimitExpired s now = false := by
  simp [isRateLimitExpired, h1, Nat.not_lt.mpr h2]

theorem handleRateLimiting_pass (s : ClientState) (now : Nat)
    (h1 : s.rateLimitExpiry ≠ 0) (h2 : now ≤ s.rateLimitExpiry)
    (h3 : s.rateLimitCount < s.rateLimit) :
    handleRateLimiting s now = ({ s with rateLimitCount := s.rateLimitCount + 1 }, none) := by
  have hexp := isRateLimitExpired_false s now h1 h2
  simp [handleRateLimiting, hexp, isRateLimited, Nat.not_le.mpr h3]

theorem handleRateLimiting_block (s : ClientState) (now : Nat)
    (h1 : s.rateLimitExpiry ≠ 0) (h2 : now ≤ s.rateLimitExpiry)
    (h3 : s.rateLimit ≤ s.rateLimitCount) :
    handleRateLimiting s now = (s, some (Failure.api "Rate limited" 429)) := by
  have hexp := isRateLimitExpired_false s now h1 h2
  simp [handleRateLimiting, hexp, isRateLimited, h3, mkApiError]

theorem jsTruthyStr_none : jsTruthyStr none = false := rfl

theorem jsTruthyStr_some (s : String) (h : s ≠ "") : jsTruthyStr (some s) = true := by
  simp [jsTruthyStr, h]

theorem handleRateLimiting_reset (s : ClientState) (now : Nat)
    (h1 : isRateLimitExpired s now = true) (hN : 0 < s.rateLimit) :
    handleRateLimiting s now =
      ({ s with rateLimitExpiry := now + s.rateLimitTimeframe, rateLimitCount := 1 }, none) := by
  by_cases htf : now + s.rateLimitTimeframe = 0
  · have hexp1 : isRateLimitExpired
        { s with rateLimitExpiry := now + s.rateLimitTimeframe, rateLimitCount := 0 } now = true := by
      simp [isRateLimitExpired, htf]
    simp [handleRateLimiting, h1, isRateLimited, hexp1]
  · have hexp1 : isRateLimitExpired
        { s with rateLimitExpiry := now + s.rateLimitTimeframe, rateLimitCount := 0 } now = false := by
      simp [isRateLimitExpired, htf, Nat.not_lt.mpr (Nat.le_add_right now s.rateLimitTimeframe)]
    simp [handleRateLimiting, h1, isRateLimited, hexp1, Nat.not_le.mpr hN]

/-! ### getCountry step lemmas -/

theorem getCountry_cacheHit (P : Provider) (s : ClientState) (ip : String) (now : Nat)
    (up : Upstream) (name : String) (h : mapGet s.cache ip = some name) (hne : name ≠ "") :
    getCountry P s ip now up =
      { state := s
        result := { data := some [("name", name)], error := none,
                    meta := { apiUrl := none, cache := some true,
                              rateLimit := some s.rateLimit,
                              rateLimitCount := some s.rateLimitCount, status := 200 } }
        fetched := false, caught := none, logged := false } := by
  simp [getCountry, h, jsTruthyStr_some name hne, clientFormatResult, formatResult]

theorem getCountry_gate (P : Provider) (s : ClientState) (ip : String) (now : Nat)
    (up : Upstream) (hmiss : mapGet s.cache ip = none)
    (h1 : s.rateLimitExpiry ≠ 0) (h2 : now ≤ s.rateLimitExpiry)
    (h3 : s.rateLimitCount < s.rateLimit) :
    (getCountry P s ip now up).fetched = true ∧
    (getCountry P s ip now up).state.rateLimitCount = s.rateLimitCount + 1 ∧
    (getCountry P s ip now up).state.rateLimitExpiry = s.rateLimitExpiry ∧
    (getCountry P s ip now up).state.rateLimit = s.rateLimit ∧
    (getCountry P s ip now up).state.rateLimitTimeframe = s.rateLimitTimeframe ∧
    (getCountry P s ip now up).state.baseUrl = s.baseUrl ∧
    (getCountry P s ip now up).state.token = s.token ∧
    ∀ k, k ≠ ip → mapGet (getCountry P s ip now up).state.cache k = mapGet s.cache k := by
  have hh := handleRateLimiting_pass s now h1 h2 h3
  rcases up with msg | ⟨resp, body⟩
  · simp [getCountry, hmiss, jsTruthyStr_none, hh, errorReturn]
  · by_cases hok : resp.ok = false
    · simp [getCountry, hmiss, jsTruthyStr_none, hh, errorReturn, hok]
    · simp only [Bool.not_eq_false] at hok
      rcases body with msg | r
      · simp [getCountry, hmiss, jsTruthyStr_none, hh, errorReturn, hok]
      · rcases hv : P.validateResult r with _ | f
        · by_cases hname : jsTruthyStr (P.getCountryNameFromResult r) = false
          · simp [getCountry, hmiss, jsTruthyStr_none, hh, errorReturn, hok, hv, hname]
          · simp only [Bool.not_eq_false] at hname
            simp only [getCountry, hmiss, jsTruthyStr_none, hh, hok, hv, hname,
              Bool.true_eq_false, if_false, Bool.false_eq_true]
            refine ⟨?_, ?_, ?_, ?_, ?_, ?_, ?_, ?_⟩ <;>
              first
                | trivial
                | (intro k hk; exact mapGet_mapSet_ne _ _ _ _ hk)
        · simp [getCountry, hmiss, jsTruthyStr_none, hh, errorReturn, hok, hv]

theorem getCountry_429 (P : Provider) (s : ClientState) (ip : String) (now : Nat)
    (up : Upstream) (hmiss : mapGet s.cache ip = none)
    (h1 : s.rateLimitExpiry ≠ 0) (h2 : now ≤ s.rateLimitExpiry)
    (h3 : s.rateLimit ≤ s.rateLimitCount) :
    getCountry P s ip now up =
      { state := s
        result := { data := none, error := some "Rate limited",
                    meta := { apiUrl := some (P.getCountryApiUrl s ip), cache := none,
                              rateLimit := some s.rateLimit,
                              rateLimitCount := some s.rateLimitCount, status := 429 } }
        fetched := false, caught := some (Failure.api "Rate limited" 429)
        logged := false } := by
  have hh := handleRateLimiting_block s now h1 h2 h3
  simp [getCountry, hmiss, jsTruthyStr_none, hh, errorReturn, clientFormatResult,
        formatResult, failureMessage, failureStatus, shouldLog, jsOrNat]

theorem getCountry_first (P : Provider) (s : ClientState) (ip : String) (now : Nat)
    (up : Upstream) (hmiss : mapGet s.cache ip = none)
    (hexp : isRateLimitExpired s now = true) (hN : 0 < s.rateLimit) :
    (getCountry P s ip now up).fetched = true ∧
    (getCountry P s ip now up).state.rateLimitCount = 1 ∧
    (getCountry P s ip now up).state.rateLimitExpiry = now + s.rateLimitTimeframe ∧
    (getCountry P s ip now up).state.rateLimit = s.rateLimit ∧
    (getCountry P s ip now up).state.rateLimitTimeframe = s.rateLimitTimeframe ∧
    (getCountry P s ip now up).state.baseUrl = s.baseUrl ∧
    (getCountry P s ip now up).state.token = s.token ∧
    ∀ k, k ≠ ip → mapGet (getCountry P s ip now up).state.cache k = mapGet s.cache k := by
  have hh := handleRateLimiting_reset s now hexp hN
  rcases up with msg | ⟨resp, body⟩
  · simp [getCountry, hmiss, jsTruthyStr_none, hh, errorReturn]
  · by_cases hok : resp.ok = false
    · simp [getCountry, hmiss, jsTruthyStr_none, hh, errorReturn, hok]
    · simp only [Bool.not_eq_false] at hok
      rcases body with msg | r
      · simp [getCountry, hmiss, jsTruthyStr_none, hh, errorReturn, hok]
      · rcases hv : P.validateResult r with _ | f
        · by_cases hname : jsTruthyStr (P.getCountryNameFromResult r) = false
          · simp [getCountry, hmiss, jsTruthyStr_none, hh, errorReturn, hok, hv, hname]
          · simp only [Bool.not_eq_false] at hname
            simp only [getCountry, hmiss, jsTruthyStr_none, hh, hok, hv, hname,
              Bool.true_eq_false, if_false, Bool.false_eq_true]
            refine ⟨?_, ?_, ?_, ?_, ?_, ?_, ?_, ?_⟩ <;>
              first
                | trivial
                | (intro k hk; exact mapGet_mapSet_ne _ _ _ _ hk)
        · simp [getCountry, hmiss, jsTruthyStr_none, hh, errorReturn, hok, hv]

/-! ### Invariant lemmas over call sequences -/

theorem handleRateLimiting_preserves (s : ClientState) (now : Nat) :
    (handleRateLimiting s now).1.cache = s.cache ∧
    (handleRateLimiting s now).1.baseUrl = s.baseUrl ∧
    (handleRateLimiting s now).1.token = s.token ∧
    (handleRateLimiting s now).1.rateLimit = s.rateLimit ∧
    (handleRateLimiting s now).1.rateLimitTimeframe = s.rateLimitTimeframe := by
  unfold handleRateLimiting
  by_cases h1 : isRateLimitExpired s now = true
  · simp only [h1, if_true]
    split_ifs <;> exact ⟨rfl, rfl, rfl, rfl, rfl⟩
  · simp only [Bool.not_eq_true] at h1
    simp only [h1, Bool.false_eq_true, if_false]
    split_ifs <;> exact ⟨rfl, rfl, rfl, rfl, rfl⟩

theorem handleRateLimiting_count_le (s : ClientState) (now : Nat)
    (htf : 0 < s.rateLimitTimeframe) (h : s.rateLimitCount ≤ s.rateLimit) :
    (handleRateLimiting s now).1.rateLimitCount ≤ s.rateLimit := by
  unfold handleRateLimiting
  by_cases h1 : isRateLimitExpired s now = true
  · simp only [h1, if_true]
    split_ifs with h2
    · simp
    · have hexp1 : isRateLimitExpired
          { s with rateLimitExpiry := now + s.rateLimitTimeframe, rateLimitCount := 0 }
            now = false := by
        have hne : ¬ (now + s.rateLimitTimeframe = 0) := by omega
        simp [isRateLimitExpired, hne]
      rw [isRateLimited, hexp1] at h2
      simp at h2
      simp
      omega
  · simp only [Bool.not_eq_true] at h1
    simp only [h1, Bool.false_eq_true, if_false]
    split_ifs with h2
    · simpa using h
    · rw [isRateLimited, h1] at h2
      simp at h2
      simp
      omega

theorem handleRateLimiting_throw_count (s : ClientState) (now : Nat)
    (h : (handleRateLimiting s now).2.isSome) :
    (handleRateLimiting s now).1.rateLimitCount ≤ s.rateLimitCount := by
  unfold handleRateLimiting at h ⊢
  by_cases h1 : isRateLimitExpired s now = true
  · simp only [h1, if_true] at h ⊢
    split_ifs at h ⊢ with h2
    · simp
    · simp at h
  · simp only [Bool.not_eq_true] at h1
    simp only [h1, Bool.false_eq_true, if_false] at h ⊢
    split_ifs at h ⊢ with h2
    · simp
    · simp at h

theorem runCalls_nil (P : Provider) (s : ClientState) : runCalls P s [] = s := rfl

theorem runCalls_cons (P : Provider) (s : ClientState) (c : Call) (cs : List Call) :
    runCalls P s (c :: cs) = runCalls P (getCountry P s c.ip c.now c.up).state cs := rfl

theorem runCalls_window (P : Provider) : ∀ (cs : List Call) (s : ClientState),
    s.rateLimitCount + cs.length ≤ s.rateLimit →
    s.rateLimitExpiry ≠ 0 →
    (∀ c ∈ cs, c.now ≤ s.rateLimitExpiry) →
    (∀ c ∈ cs, mapGet s.cache c.ip = none) →
    (cs.map Call.ip).Nodup →
    (runCalls P s cs).rateLimitCount = s.rateLimitCount + cs.length ∧
    (runCalls P s cs).rateLimitExpiry = s.rateLimitExpiry ∧
    (runCalls P s cs).rateLimit = s.rateLimit ∧
    (runCalls P s cs).rateLimitTimeframe = s.rateLimitTimeframe ∧
    (runCalls P s cs).baseUrl = s.baseUrl ∧
    (runCalls P s cs).token = s.token ∧
    ∀ k, k ∉ cs.map Call.ip → mapGet (runCalls P s cs).cache k = mapGet s.cache k := by
  intro cs
  induction cs with
  | nil =>
    intro s _ _ _ _ _
    simp [runCalls]
  | cons c cs ih =>
    intro s hcount hexp hw hmiss hnodup
    obtain ⟨hf, hcnt, hexp', hlim, htf, hurl, htok, hcache⟩ :=
      getCountry_gate P s c.ip c.now c.up (hmiss c (by simp)) hexp
        (hw c (by simp)) (by simp at hcount; omega)
    simp only [List.map_cons, List.nodup_cons] at hnodup
    have hstep := runCalls_cons P s c cs
    obtain ⟨ih1, ih2, ih3, ih4, ih5, ih6, ih7⟩ :=
      ih (getCountry P s c.ip c.now c.up).state
        (by rw [hcnt, hlim]; simp at hcount; omega)
        (by rw [hexp']; exact hexp)
        (by intro d hd; rw [hexp']; exact hw d (by simp [hd]))
        (by
          intro d hd
          have hne : d.ip ≠ c.ip := by
            intro he
            exact hnodup.1 (he ▸ List.mem_map_of_mem Call.ip hd)
          rw [hcache d.ip hne]
          exact hmiss d (by simp [hd]))
        hnodup.2
    refine ⟨?_, ?_, ?_, ?_, ?_, ?_, ?_⟩
    · rw [hstep, ih1, hcnt]; simp; omega
    · rw [hstep, ih2, hexp']
    · rw [hstep, ih3, hlim]
    · rw [hstep, ih4, htf]
    · rw [hstep, ih5, hurl]
    · rw [hstep, ih6, htok]
    · intro k hk
      simp only [List.map_cons, List.mem_cons] at hk
      push_neg at hk
      rw [hstep, ih7 k hk.2, hcache k hk.1]

/-! ### Claim C1: transferCache merge direction -/

/-- C1 counterexample: after the receiver (holding 1.1.1.1 to X) runs
transferCache on a source holding 1.1.1.1 to Y, the merged cache holds Y,
not the receiver's pre-existing X: the claim that the receiver's prior
value wins the collision is false on the code, whose spread order
`[...this._cache, ...apiClient.cache]` lets the source overwrite. -/
theorem C1_counterexample :
    mapGet (transferCache c1Receiver c1Source).cache "1.1.1.1" = some "Y" ∧
    ¬ mapGet (transferCache c1Receiver c1Source).cache "1.1.1.1" = some "X" := by
  constructor
  · rfl
  · decide

/-- C1 (amended): after A.transferCache(B), A's cache contains every key of
A's prior cache and every key of B's cache; for an IP present in both, the
incoming source B's value takes precedence over A's pre-existing value
(the opposite precedence to the claim), and an IP only in A keeps A's value. -/
theorem C1_transferCache_merge (A B : ClientState) (hb : nodupKeys B.cache) :
    (∀ k, (mapGet A.cache k).isSome → (mapGet (transferCache A B).cache k).isSome) ∧
    (∀ k, (mapGet B.cache k).isSome → (mapGet (transferCache A B).cache k).isSome) ∧
    (∀ k v, mapGet B.cache k = some v → mapGet (transferCache A B).cache k = some v) ∧
    (∀ k v, mapGet B.cache k = none → mapGet A.cache k = some v →
       mapGet (transferCache A B).cache k = some v) := by
  refine ⟨?_, ?_, ?_, ?_⟩
  · intro k h
    exact mapMerge_get_isSome_left _ _ _ h
  · intro k h
    exact mapMerge_get_isSome_right _ _ _ h
  · intro k v h
    exact mapMerge_get_of_get_eq_some _ _ _ _ hb h
  · intro k v hnone ha
    show mapGet (mapMerge A.cache B.cache) k = some v
    rw [mapMerge_get_of_get_eq_none _ _ _ hnone, ha]

/-- C1 witness: the amended merge theorem applied to the concrete clients. -/
theorem C1_transferCache_merge_witness :
    nodupKeys c1Source.cache ∧
    mapGet (transferCache c1Receiver c1Source).cache "1.1.1.1" = some "Y" := by
  refine ⟨by decide, ?_⟩
  exact (C1_transferCache_merge c1Receiver c1Source (by decide)).2.2.1 "1.1.1.1" "Y" rfl

/-! ### Claim C2: orchestrator failover with cache migration -/

/-- C2: with clients in order first-second and the first active, an access of
the current-client getter at a moment when the first is rate limited and the
second is not returns the second client, makes it active, and afterwards the
second client's cache contains every key-value entry the first held; when both
are rate limited the access returns the previously active first client with
the orchestrator state unchanged. -/
theorem C2_orchestrator_failover (cl1 cl2 : ClientState) (now : Nat)
    (h1 : isRateLimited cl1 now = true) (hnd : nodupKeys cl1.cache) :
    (isRateLimited cl2 now = false →
       orchApiClient { apiClients := [cl1, cl2], activeIdx := 0 } now =
         ({ apiClients := [cl1, transferCache cl2 cl1], activeIdx := 1 }, 1) ∧
       (∀ k v, mapGet cl1.cache k = some v →
          mapGet (transferCache cl2 cl1).cache k = some v)) ∧
    (isRateLimited cl2 now = true →
       orchApiClient { apiClients := [cl1, cl2], activeIdx := 0 } now =
         ({ apiClients := [cl1, cl2], activeIdx := 0 }, 0)) := by
  constructor
  · intro h2
    constructor
    · simp [orchApiClient, h1, h2, List.findIdx?_cons]
    · intro k v h
      exact mapMerge_get_of_get_eq_some _ _ _ _ hnd h
  · intro h2
    simp [orchApiClient, h1, h2, List.findIdx?_cons]

/-- C2 witness: a concrete failover, with the first client exhausted inside an
active window and the second fresh inside the same window. -/
theorem C2_orchestrator_failover_witness :
    isRateLimited
      { baseUrl := "b1", token := "t1", rateLimit := 1, rateLimitCount := 1,
        rateLimitExpiry := 100, rateLimitTimeframe := 60000,
        cache := [("1.1.1.1", "France")] } 50 = true ∧
    nodupKeys [("1.1.1.1", "France")] ∧
    mapGet (transferCache
      { baseUrl := "b2", token := "t2", rateLimit := 5, rateLimitCount := 0,
        rateLimitExpiry := 100, rateLimitTimeframe := 60000, cache := [] }
      { baseUrl := "b1", token := "t1", rateLimit := 1, rateLimitCount := 1,
        rateLimitExpiry := 100, rateLimitTimeframe := 60000,
        cache := [("1.1.1.1", "France")] }).cache "1.1.1.1" = some "France" := by
  refine ⟨by decide, by decide, ?_⟩
  exact ((C2_orchestrator_failover
    { baseUrl := "b1", token := "t1", rateLimit := 1, rateLimitCount := 1,
      rateLimitExpiry := 100, rateLimitTimeframe := 60000,
      cache := [("1.1.1.1", "France")] }
    { baseUrl := "b2", token := "t2", rateLimit := 5, rateLimitCount := 0,
      rateLimitExpiry := 100, rateLimitTimeframe := 60000, cache := [] }
    50 (by decide) (by decide)).1 (by decide)).2 "1.1.1.1" "France" rfl

/-! ### Claim C5: cache hits -/

/-- C5: when the client's cache holds a (non-empty, as every stored value is)
name for the IP, getCountry returns a success envelope with cache true, the
cached name as the data and no URL in the metadata, consumes no rate-limit
budget, issues no upstream request, and leaves the whole client state
(counters, expiry and cache) unchanged. -/
theorem C5_cache_hit (P : Provider) (s : ClientState) (ip : String) (now : Nat)
    (up : Upstream) (name : String) (h : mapGet s.cache ip = some name)
    (hne : name ≠ "") :
    getCountry P s ip now up =
      { state := s
        result := { data := some [("name", name)], error := none,
                    meta := { apiUrl := none, cache := some true,
                              rateLimit := some s.rateLimit,
                              rateLimitCount := some s.rateLimitCount, status := 200 } }
        fetched := false, caught := none, logged := false } :=
  getCountry_cacheHit P s ip now up name h hne

/-- C5 witness: a concrete cached lookup. -/
theorem C5_cache_hit_witness :
    getCountry ipstackProvider c1Receiver "1.1.1.1" 7 (Upstream.reject "network down") =
      { state := c1Receiver
        result := { data := some [("name", "X")], error := none,
                    meta := { apiUrl := none, cache := some true,
                              rateLimit := some 5,
                              rateLimitCount := some 0, status := 200 } }
        fetched := false, caught := none, logged := false } :=
  C5_cache_hit ipstackProvider c1Receiver "1.1.1.1" 7 (Upstream.reject "network down")
    "X" rfl (by decide)

/-! ### Claim C10: formatResult -/

/-- C10: for an error-shaped payload formatResult yields an envelope whose
error holds only the message, whose meta omits the cache flag, and whose
status is the error's explicit (nonzero) status or 400 when absent; for a
success-shaped payload it yields status 200 with all non-meta fields as data. -/
theorem C10_formatResult (p : Payload) :
    (∀ e, p.error = some e →
       (formatResult p).error = some e.message ∧
       (formatResult p).data = none ∧
       (formatResult p).meta.cache = none ∧
       (formatResult p).meta.apiUrl = p.apiUrl ∧
       (formatResult p).meta.rateLimit = p.rateLimit ∧
       (formatResult p).meta.rateLimitCount = p.rateLimitCount ∧
       (e.status = none → (formatResult p).meta.status = 400) ∧
       (∀ st, e.status = some st → st ≠ 0 → (formatResult p).meta.status = st)) ∧
    (p.error = none →
       (formatResult p).error = none ∧
       (formatResult p).data = some p.rest ∧
       (formatResult p).meta.cache = some p.cache ∧
       (formatResult p).meta.apiUrl = p.apiUrl ∧
       (formatResult p).meta.rateLimit = p.rateLimit ∧
       (formatResult p).meta.rateLimitCount = p.rateLimitCount ∧
       (formatResult p).meta.status = 200) := by
  constructor
  · intro e he
    refine ⟨?_, ?_, ?_, ?_, ?_, ?_, ?_, ?_⟩ <;>
      simp [formatResult, he, jsOrNat]
    · intro h
      simp [h]
    · intro st h hne
      simp [h, hne]
  · intro he
    refine ⟨?_, ?_, ?_, ?_, ?_, ?_, ?_⟩ <;> simp [formatResult, he]

/-- C10 witness: the formatter theorem applied to the two concrete payloads. -/
theorem C10_formatResult_witness :
    (formatResult c10ErrPayload).meta.status = 401 ∧
    (formatResult c10ErrPayload).meta.cache = none ∧
    (formatResult c10ErrPayload).error = some "Unauthorized" ∧
    (formatResult c10OkPayload).meta.status = 200 ∧
    (formatResult c10OkPayload).data = some [("country", "United States")] := by
  refine ⟨?_, ?_, ?_, ?_, ?_⟩
  · exact ((C10_formatResult c10ErrPayload).1 _ rfl).2.2.2.2.2.2.2 401 rfl (by decide)
  · exact ((C10_formatResult c10ErrPayload).1 _ rfl).2.2.1
  · exact ((C10_formatResult c10ErrPayload).1 _ rfl).1
  · exact ((C10_formatResult c10OkPayload).2 rfl).2.2.2.2.2.2
  · exact ((C10_formatResult c10OkPayload).2 rfl).2.1

/-! ### Outcome analysis of getCountry -/

theorem mkApiError_nonzero (m : String) (st : Nat) : apiStatusNonzero (mkApiError m st) := by
  intro m' st' he
  unfold mkApiError at he
  split_ifs at he with h0
  · injection he with h1 h2
    omega
  · injection he with h1 h2
    omega

theorem plain_nonzero (m : String) : apiStatusNonzero (Failure.plain m) := by
  intro m' st' he
  exact absurd he (by simp)

theorem handleRateLimiting_throw_eq (s : ClientState) (now : Nat) (f : Failure)
    (h : (handleRateLimiting s now).2 = some f) :
    f = Failure.api "Rate limited" 429 := by
  unfold handleRateLimiting at h
  by_cases h1 : isRateLimitExpired s now = true
  · simp only [h1, if_true] at h
    by_cases h2 : isRateLimited
        { s with rateLimitExpiry := now + s.rateLimitTimeframe, rateLimitCount := 0 } now = true
    · simp only [h2, if_true] at h
      simpa [mkApiError] using h.symm
    · simp only [h2, Bool.false_eq_true, if_false] at h
      simp at h
  · simp only [Bool.not_eq_true] at h1
    simp only [h1, Bool.false_eq_true, if_false] at h
    by_cases h2 : isRateLimited s now = true
    · simp only [h2, if_true] at h
      simpa [mkApiError] using h.symm
    · simp only [h2, Bool.false_eq_true, if_false] at h
      simp at h

theorem errorReturn_spec (s : ClientState) (apiUrl : String) (f : Failure) (fetched : Bool) :
    (errorReturn s apiUrl f fetched).result.error = some (failureMessage f) ∧
    (errorReturn s apiUrl f fetched).result.data = none ∧
    (errorReturn s apiUrl f fetched).result.meta.cache = none ∧
    (errorReturn s apiUrl f fetched).result.meta.apiUrl = some apiUrl ∧
    (errorReturn s apiUrl f fetched).result.meta.rateLimit = some s.rateLimit ∧
    (errorReturn s apiUrl f fetched).result.meta.rateLimitCount = some s.rateLimitCount ∧
    (errorReturn s apiUrl f fetched).result.meta.status = jsOrNat (failureStatus f) 400 ∧
    (errorReturn s apiUrl f fetched).state = s ∧
    (errorReturn s apiUrl f fetched).fetched = fetched ∧
    (errorReturn s apiUrl f fetched).caught = some f ∧
    (errorReturn s apiUrl f fetched).logged = shouldLog f := by
  refine ⟨?_, ?_, ?_, ?_, ?_, ?_, ?_, ?_, ?_, ?_, ?_⟩ <;>
    simp [errorReturn, clientFormatResult, formatResult]

/-- Every getCountry call is a cache hit, an error return on the state left by
handleRateLimiting, or a success that additionally caches the extracted name. -/
theorem getCountry_cases (P : Provider) (s : ClientState) (ip : String) (now : Nat)
    (up : Upstream) :
    (∃ nm, mapGet s.cache ip = some nm ∧ nm ≠ "" ∧
       getCountry P s ip now up =
         { state := s
           result := clientFormatResult s { cache := true, rest := [("name", nm)] }
           fetched := false, caught := none, logged := false }) ∨
    (∃ f fetched, getCountry P s ip now up =
         errorReturn (handleRateLimiting s now).1 (P.getCountryApiUrl s ip) f fetched ∧
       (fetched = false → (handleRateLimiting s now).2.isSome) ∧
       ((∀ r g, P.validateResult r = some g → apiStatusNonzero g) → apiStatusNonzero f)) ∨
    (∃ nm, nm ≠ "" ∧
       getCountry P s ip now up =
         { state := { (handleRateLimiting s now).1 with
                      cache := mapSet (handleRateLimiting s now).1.cache ip nm }
           result := clientFormatResult
             { (handleRateLimiting s now).1 with
               cache := mapSet (handleRateLimiting s now).1.cache ip nm }
             { apiUrl := some (P.getCountryApiUrl s ip), rest := [("name", nm)] }
           fetched := true, caught := none, logged := false }) := by
  by_cases hc : jsTruthyStr (mapGet s.cache ip) = true
  · left
    rcases hm : mapGet s.cache ip with _ | nm
    · rw [hm] at hc
      simp [jsTruthyStr] at hc
    · rw [hm] at hc
      have hne : nm ≠ "" := by
        intro he
        rw [he] at hc
        simp [jsTruthyStr] at hc
      refine ⟨nm, rfl, hne, ?_⟩
      simp [getCountry, hm, jsTruthyStr_some nm hne]
  · simp only [Bool.not_eq_true] at hc
    rcases hh : handleRateLimiting s now with ⟨s1, f1⟩
    have hh1 : (handleRateLimiting s now).1 = s1 := by rw [hh]
    have hh2 : (handleRateLimiting s now).2 = f1 := by rw [hh]
    rcases f1 with _ | f
    · rcases up with msg | ⟨resp, body⟩
      · right; left
        refine ⟨Failure.plain msg, true, ?_, by simp, fun _ => plain_nonzero msg⟩
        simp [getCountry, hc, hh]
      · by_cases hok : resp.ok = false
        · right; left
          refine ⟨mkApiError (toString resp.status ++ " " ++ resp.statusText) resp.status,
            true, ?_, by simp, fun _ => mkApiError_nonzero _ _⟩
          simp [getCountry, hc, hh, hok]
        · simp only [Bool.not_eq_false] at hok
          rcases body with msg | r
          · right; left
            refine ⟨Failure.plain msg, true, ?_, by simp, fun _ => plain_nonzero msg⟩
            simp [getCountry, hc, hh, hok]
          · rcases hv : P.validateResult r with _ | g
            · by_cases hname : jsTruthyStr (P.getCountryNameFromResult r) = false
              · right; left
                refine ⟨mkApiError "Country not found for this IP" 400, true, ?_,
                  by simp, fun _ => mkApiError_nonzero _ _⟩
                simp [getCountry, hc, hh, hok, hv, hname]
              · simp only [Bool.not_eq_false] at hname
                right; right
                rcases hnm : P.getCountryNameFromResult r with _ | v
                · rw [hnm] at hname
                  simp [jsTruthyStr] at hname
                · have hne : v ≠ "" := by
                    intro he
                    rw [hnm, he] at hname
                    simp [jsTruthyStr] at hname
                  refine ⟨v, hne, ?_⟩
                  simp [getCountry, hc, hh, hok, hv, hnm, jsTruthyStr_some v hne]
            · right; left
              refine ⟨g, true, ?_, by simp, fun hval => hval r g hv⟩
              simp [getCountry, hc, hh, hok, hv]
    · right; left
      refine ⟨f, false, ?_, ?_, ?_⟩
      · simp [getCountry, hc, hh]
      · intro _
        rfl
      · intro _
        have hf := handleRateLimiting_throw_eq s now f (by rw [hh2])
        rw [hf]
        intro m st he
        injection he with e1 e2
        omega

/-! ### Claim C9: cache atomicity -/

/-- C9: whenever getCountry returns an error envelope the cache after the call
equals the cache before it; a cache-hit success also leaves it unchanged; and
an entry for the requested IP is added exactly by a non-cached success. -/
theorem C9_cache_atomicity (P : Provider) (s : ClientState) (ip : String) (now : Nat)
    (up : Upstream) :
    ((getCountry P s ip now up).result.error.isSome →
       (getCountry P s ip now up).state.cache = s.cache) ∧
    ((getCountry P s ip now up).result.meta.cache = some true →
       (getCountry P s ip now up).state.cache = s.cache) ∧
    ((getCountry P s ip now up).result.error = none →
     (getCountry P s ip now up).result.meta.cache = some false →
       ∃ nm, nm ≠ "" ∧ (getCountry P s ip now up).state.cache = mapSet s.cache ip nm) := by
  have hpres := (handleRateLimiting_preserves s now).1
  rcases getCountry_cases P s ip now up with ⟨nm, hm, hne, he⟩ | ⟨f, fetched, he, _, _⟩ |
    ⟨nm, hne, he⟩ <;> rw [he]
  · refine ⟨?_, fun _ => rfl, ?_⟩
    · intro h
      simp [clientFormatResult, formatResult] at h
    · intro _ h
      simp [clientFormatResult, formatResult] at h
  · refine ⟨?_, ?_, ?_⟩
    · intro _
      simp [errorReturn, hpres]
    · intro h
      simp [errorReturn, clientFormatResult, formatResult] at h
    · intro h
      simp [errorReturn, clientFormatResult, formatResult] at h
  · refine ⟨?_, ?_, fun _ _ => ⟨nm, hne, ?_⟩⟩
    · intro h
      simp [clientFormatResult, formatResult] at h
    · intro h
      simp [clientFormatResult, formatResult] at h
    · simp [hpres]

/-- C9 witness: a rate-limited call returns an error envelope and leaves the
cache untouched. -/
theorem C9_cache_atomicity_witness :
    (getCountry ipstackProvider limitedClient "9.9.9.9" 50
        (Upstream.reject "boom")).result.error.isSome = true ∧
    (getCountry ipstackProvider limitedClient "9.9.9.9" 50
        (Upstream.reject "boom")).state.cache = limitedClient.cache := by
  refine ⟨by decide, ?_⟩
  exact (C9_cache_atomicity ipstackProvider limitedClient "9.9.9.9" 50
    (Upstream.reject "boom")).1 (by decide)

/-! ### Claim C4: failures never escape getCountry -/

theorem ipstack_validate_nonzero :
    ∀ r g, ipstackProvider.validateResult r = some g → apiStatusNonzero g := by
  intro r g h
  simp only [ipstackProvider] at h
  rcases hre : r.error with _ | e
  · rw [hre] at h
    simp at h
  · rw [hre] at h
    simp only [Option.some.injEq] at h
    rw [← h]
    exact mkApiError_nonzero _ _

theorem ipxapi_validate_nonzero :
    ∀ r g, ipxapiProvider.validateResult r = some g → apiStatusNonzero g := by
  intro r g h
  simp only [ipxapiProvider] at h
  split_ifs at h with hs
  simp only [Option.some.injEq] at h
  rw [← h]
  exact mkApiError_nonzero _ _

theorem shouldLog_iff (f : Failure) (h : apiStatusNonzero f) :
    shouldLog f = true ↔
      (failureStatus f = none ∨ ∃ st, failureStatus f = some st ∧ 500 ≤ st) := by
  rcases f with ⟨m, st⟩ | m
  · have hst : st ≠ 0 := h m st rfl
    simp [shouldLog, failureStatus, hst]
  · simp [shouldLog, failureStatus]

/-- C4: for both providers and any upstream behaviour, getCountry returns an
error envelope exactly when it caught a failure; that envelope carries the
computed URL and the current (post-call) rate-limit counters; and the failure
is logged exactly when its status is absent or at least 500. -/
theorem C4_no_escape (P : Provider) (s : ClientState) (ip : String) (now : Nat)
    (up : Upstream) (hP : P = ipstackProvider ∨ P = ipxapiProvider) :
    ((getCountry P s ip now up).result.error.isSome ↔
       (getCountry P s ip now up).caught.isSome) ∧
    ((getCountry P s ip now up).result.error.isSome →
       (getCountry P s ip now up).result.meta.apiUrl = some (P.getCountryApiUrl s ip) ∧
       (getCountry P s ip now up).result.meta.rateLimit =
         some (getCountry P s ip now up).state.rateLimit ∧
       (getCountry P s ip now up).result.meta.rateLimitCount =
         some (getCountry P s ip now up).state.rateLimitCount) ∧
    ((getCountry P s ip now up).logged = true ↔
       ∃ f, (getCountry P s ip now up).caught = some f ∧
         (failureStatus f = none ∨ ∃ st, failureStatus f = some st ∧ 500 ≤ st)) := by
  have hval : ∀ r g, P.validateResult r = some g → apiStatusNonzero g := by
    rcases hP with h | h <;> rw [h]
    · exact ipstack_validate_nonzero
    · exact ipxapi_validate_nonzero
  rcases getCountry_cases P s ip now up with ⟨nm, hm, hne, he⟩ | ⟨f, fetched, he, _, hnz⟩ |
    ⟨nm, hne, he⟩ <;> rw [he]
  · refine ⟨by simp [clientFormatResult, formatResult], ?_, by simp⟩
    intro h
    simp [clientFormatResult, formatResult] at h
  · have hnz2 := hnz hval
    obtain ⟨e1, e2, e3, e4, e5, e6, e7, e8, e9, e10, e11⟩ :=
      errorReturn_spec (handleRateLimiting s now).1 (P.getCountryApiUrl s ip) f fetched
    refine ⟨?_, ?_, ?_⟩
    · rw [e1, e10]
      simp
    · intro _
      refine ⟨e4, ?_, ?_⟩
      · rw [e5, e8]
      · rw [e6, e8]
    · rw [e11, e10, shouldLog_iff f hnz2]
      constructor
      · intro hcond
        exact ⟨f, rfl, hcond⟩
      · rintro ⟨g, hg, hcond⟩
        simp only [Option.some.injEq] at hg
        rw [hg]
        exact hcond
  · refine ⟨by simp [clientFormatResult, formatResult], ?_, by simp⟩
    intro h
    simp [clientFormatResult, formatResult] at h

/-- C4 witness: the rate-limited call caught an expected 429 failure, so the
envelope carries URL and counters while nothing is logged. -/
theorem C4_no_escape_witness :
    (getCountry ipstackProvider limitedClient "9.9.9.9" 50
        (Upstream.reject "boom")).result.error.isSome = true ∧
    (getCountry ipstackProvider limitedClient "9.9.9.9" 50
        (Upstream.reject "boom")).result.meta.apiUrl =
      some (ipstackProvider.getCountryApiUrl limitedClient "9.9.9.9") ∧
    (getCountry ipstackProvider limitedClient "9.9.9.9" 50
        (Upstream.reject "boom")).result.meta.rateLimitCount =
      some (getCountry ipstackProvider limitedClient "9.9.9.9" 50
        (Upstream.reject "boom")).state.rateLimitCount := by
  refine ⟨by decide, ?_, ?_⟩
  · exact ((C4_no_escape ipstackProvider limitedClient "9.9.9.9" 50
      (Upstream.reject "boom") (Or.inl rfl)).2.1 (by decide)).1
  · exact ((C4_no_escape ipstackProvider limitedClient "9.9.9.9" 50
      (Upstream.reject "boom") (Or.inl rfl)).2.1 (by decide)).2.2

/-! ### Claim C6: the counter never exceeds the limit -/

theorem mkClient_tf_pos (b t : String) (N : Nat) (tfOpt : Option Nat) :
    0 < (mkClient b t N tfOpt).rateLimitTimeframe := by
  rcases tfOpt with _ | n
  · simp [mkClient, jsOrNat, DEFAULT_RATE_LIMIT_TIMEFRAME]
  · by_cases hn : n = 0
    · simp [mkClient, jsOrNat, hn, DEFAULT_RATE_LIMIT_TIMEFRAME]
    · simp [mkClient, jsOrNat, hn]
      omega

theorem getCountry_invariant_step (P : Provider) (s : ClientState) (ip : String)
    (now : Nat) (up : Upstream) (htf : 0 < s.rateLimitTimeframe)
    (h : s.rateLimitCount ≤ s.rateLimit) :
    (getCountry P s ip now up).state.rateLimitCount ≤
      (getCountry P s ip now up).state.rateLimit ∧
    (getCountry P s ip now up).state.rateLimit = s.rateLimit ∧
    (getCountry P s ip now up).state.rateLimitTimeframe = s.rateLimitTimeframe := by
  obtain ⟨hca, hb, htk, hl, htf2⟩ := handleRateLimiting_preserves s now
  have hcnt := handleRateLimiting_count_le s now htf h
  rcases getCountry_cases P s ip now up with ⟨nm, _, _, he⟩ | ⟨f, fetched, he, _, _⟩ |
    ⟨nm, _, he⟩ <;> rw [he]
  · exact ⟨h, rfl, rfl⟩
  · refine ⟨?_, ?_, ?_⟩
    · simp only [errorReturn]
      rw [hl]
      exact hcnt
    · simp [errorReturn, hl]
    · simp [errorReturn, htf2]
  · refine ⟨?_, ?_, ?_⟩
    · simp only []
      rw [hl]
      exact hcnt
    · simp [hl]
    · simp [htf2]

theorem runCalls_count_le (P : Provider) : ∀ (cs : List Call) (s : ClientState),
    0 < s.rateLimitTimeframe → s.rateLimitCount ≤ s.rateLimit →
    (runCalls P s cs).rateLimitCount ≤ s.rateLimit := by
  intro cs
  induction cs with
  | nil =>
    intro s _ h
    exact h
  | cons c cs ih =>
    intro s htf h
    rw [runCalls_cons]
    obtain ⟨h1, h2, h3⟩ := getCountry_invariant_step P s c.ip c.now c.up htf h
    have hres := ih (getCountry P s c.ip c.now c.up).state (by rw [h3]; exact htf) h1
    rw [h2] at hres
    exact hres

theorem getCountry_fetched_false_count (P : Provider) (s : ClientState) (ip : String)
    (now : Nat) (up : Upstream) (h : (getCountry P s ip now up).fetched = false) :
    (getCountry P s ip now up).state.rateLimitCount ≤ s.rateLimitCount := by
  rcases getCountry_cases P s ip now up with ⟨nm, _, _, he⟩ | ⟨f, fetched, he, hfe, _⟩ |
    ⟨nm, _, he⟩
  · rw [he]
  · rw [he] at h ⊢
    simp only [errorReturn] at h
    have hth := handleRateLimiting_throw_count s now (hfe h)
    simpa [errorReturn] using hth
  · rw [he] at h
    simp at h

/-- C6: for a freshly constructed client with rate limit N, the counter never
exceeds N over any sequence of getCountry calls; and any call that issues no
upstream request (a cache hit or the 429 rejection) never increases the
counter, because the rate-limit error is thrown before the increment. -/
theorem C6_count_never_exceeds (P : Provider) (b t : String) (N : Nat)
    (tfOpt : Option Nat) (cs : List Call) :
    (runCalls P (mkClient b t N tfOpt) cs).rateLimitCount ≤ N ∧
    (∀ s ip now up, (getCountry P s ip now up).fetched = false →
       (getCountry P s ip now up).state.rateLimitCount ≤ s.rateLimitCount) := by
  constructor
  · have htf := mkClient_tf_pos b t N tfOpt
    have h0 : (mkClient b t N tfOpt).rateLimitCount ≤ (mkClient b t N tfOpt).rateLimit := by
      simp [mkClient]
    exact runCalls_count_le P cs (mkClient b t N tfOpt) htf h0
  · exact getCountry_fetched_false_count P

/-- C6 witness: two calls against a limit of one stay at a count of one, and a
rejected call against an exhausted client does not increase its counter. -/
theorem C6_count_never_exceeds_witness :
    (runCalls ipstackProvider (mkClient "http://api.ipstack.com" "tok" 1 none)
        [{ ip := "1.1.1.1", now := 5, up := Upstream.reject "x" },
         { ip := "2.2.2.2", now := 6, up := Upstream.reject "x" }]).rateLimitCount ≤ 1 ∧
    (getCountry ipstackProvider limitedClient "8.8.8.8" 50
        (Upstream.reject "x")).fetched = false ∧
    (getCountry ipstackProvider limitedClient "8.8.8.8" 50
        (Upstream.reject "x")).state.rateLimitCount ≤ limitedClient.rateLimitCount := by
  refine ⟨(C6_count_never_exceeds ipstackProvider "http://api.ipstack.com" "tok" 1 none
    [{ ip := "1.1.1.1", now := 5, up := Upstream.reject "x" },
     { ip := "2.2.2.2", now := 6, up := Upstream.reject "x" }]).1, by decide, ?_⟩
  exact (C6_count_never_exceeds ipstackProvider "http://api.ipstack.com" "tok" 1 none []).2
    limitedClient "8.8.8.8" 50 (Upstream.reject "x") (by decide)

/-! ### Claim C7: lazy window reset and the derived isRateLimited -/

theorem handleRateLimiting_expiry (s : ClientState) (now : Nat) :
    (isRateLimitExpired s now = true →
       (handleRateLimiting s now).1.rateLimitExpiry = now + s.rateLimitTimeframe ∧
       (handleRateLimiting s now).1.rateLimitCount ≤ 1) ∧
    (isRateLimitExpired s now = false →
       (handleRateLimiting s now).1.rateLimitExpiry = s.rateLimitExpiry) := by
  unfold handleRateLimiting
  constructor
  · intro h
    simp only [h, if_true]
    split_ifs <;> simp
  · intro h
    simp only [h, Bool.false_eq_true, if_false]
    split_ifs <;> simp

theorem getCountry_miss_state (P : Provider) (s : ClientState) (ip : String) (now : Nat)
    (up : Upstream) (hc : jsTruthyStr (mapGet s.cache ip) = false) :
    (getCountry P s ip now up).state.rateLimitExpiry =
      (handleRateLimiting s now).1.rateLimitExpiry ∧
    (getCountry P s ip now up).state.rateLimitCount =
      (handleRateLimiting s now).1.rateLimitCount := by
  rcases getCountry_cases P s ip now up with ⟨nm, hm, hne, he⟩ | ⟨f, fetched, he, _, _⟩ |
    ⟨nm, _, he⟩ <;> rw [he]
  · rw [hm, jsTruthyStr_some nm hne] at hc
    simp at hc
  · simp [errorReturn]
  · simp

/-- C7: rateLimitCount is reset and rateLimitExpiry recomputed to now plus the
timeframe exactly when a non-cached call is attempted strictly after the
expiry or while the expiry is unset (the counter right after such a call is at
most one); a cached call changes nothing, and a non-cached call inside an
active window keeps the expiry; and isRateLimited is true iff the window is
neither expired nor unstarted and the count has reached the limit. -/
theorem C7_lazy_window (P : Provider) (s : ClientState) (ip : String) (now : Nat)
    (up : Upstream) :
    (isRateLimited s now = true ↔
       (¬ (s.rateLimitExpiry = 0 ∨ s.rateLimitExpiry < now) ∧
        s.rateLimit ≤ s.rateLimitCount)) ∧
    (∀ nm, mapGet s.cache ip = some nm → nm ≠ "" →
       (getCountry P s ip now up).state = s) ∧
    (jsTruthyStr (mapGet s.cache ip) = false →
     (s.rateLimitExpiry = 0 ∨ s.rateLimitExpiry < now) →
       (getCountry P s ip now up).state.rateLimitExpiry = now + s.rateLimitTimeframe ∧
       (getCountry P s ip now up).state.rateLimitCount ≤ 1) ∧
    (jsTruthyStr (mapGet s.cache ip) = false →
     ¬ (s.rateLimitExpiry = 0 ∨ s.rateLimitExpiry < now) →
       (getCountry P s ip now up).state.rateLimitExpiry = s.rateLimitExpiry) := by
  have hexp_iff : isRateLimitExpired s now = true ↔
      (s.rateLimitExpiry = 0 ∨ s.rateLimitExpiry < now) := by
    unfold isRateLimitExpired
    split_ifs with h0
    · simp [h0]
    · simp [h0]
  refine ⟨?_, ?_, ?_, ?_⟩
  · rw [isRateLimited]
    split_ifs with hx
    · constructor
      · intro habs
        exact absurd habs (by simp)
      · rintro ⟨hneg, _⟩
        exact absurd (hexp_iff.mp hx) hneg
    · have hneg : ¬ (s.rateLimitExpiry = 0 ∨ s.rateLimitExpiry < now) := fun hcond =>
        hx (hexp_iff.mpr hcond)
      simp [hneg]
  · intro nm hm hne
    rw [getCountry_cacheHit P s ip now up nm hm hne]
  · intro hc hcond
    obtain ⟨h1, h2⟩ := getCountry_miss_state P s ip now up hc
    obtain ⟨he, hcnt⟩ := (handleRateLimiting_expiry s now).1 (hexp_iff.mpr hcond)
    rw [h1, h2, he]
    exact ⟨rfl, hcnt⟩
  · intro hc hcond
    obtain ⟨h1, _⟩ := getCountry_miss_state P s ip now up hc
    have hx : isRateLimitExpired s now = false := by
      rcases hb : isRateLimitExpired s now
      · rfl
      · exact absurd (hexp_iff.mp hb) hcond
    rw [h1, (handleRateLimiting_expiry s now).2 hx]

/-- C7 witness: a fresh client resets lazily on its first non-cached call, and
a cached call leaves the exhausted client untouched. -/
theorem C7_lazy_window_witness :
    (getCountry ipstackProvider (mkClient "b" "t" 5 none) "9.9.9.9" 5
        (Upstream.reject "x")).state.rateLimitExpiry = 5 + 3600000 ∧
    (getCountry ipstackProvider (mkClient "b" "t" 5 none) "9.9.9.9" 5
        (Upstream.reject "x")).state.rateLimitCount ≤ 1 ∧
    (getCountry ipstackProvider limitedClient "8.8.8.8" 50
        (Upstream.reject "x")).state = limitedClient := by
  have h := (C7_lazy_window ipstackProvider (mkClient "b" "t" 5 none) "9.9.9.9" 5
    (Upstream.reject "x")).2.2.1 (by decide) (Or.inl (by decide))
  have h2 := (C7_lazy_window ipstackProvider limitedClient "8.8.8.8" 50
    (Upstream.reject "x")).2.1 "US" (by decide) (by decide)
  exact ⟨h.1, h.2, h2⟩

/-! ### Claim C8: failure statuses by kind -/

/-- C8: within an active window with budget left and an uncached IP, a non-ok
HTTP response yields the message status-space-statusText with the upstream
status code; for the base (ipstack) provider a 2xx body carrying an error
yields status 401 exactly when the error type is invalid_access_key and 400
otherwise, with the provider-derived message; for the alternate (ipxapi)
provider a 2xx body signalling failure always yields status 400. -/
theorem C8_failure_statuses (s : ClientState) (ip : String) (now : Nat)
    (hmiss : mapGet s.cache ip = none) (h1 : s.rateLimitExpiry ≠ 0)
    (h2 : now ≤ s.rateLimitExpiry) (h3 : s.rateLimitCount < s.rateLimit) :
    (∀ (P : Provider) (resp : HttpResponse) (body : Except String ApiResult),
       resp.ok = false → 0 < resp.status →
       (getCountry P s ip now (Upstream.response resp body)).result.error =
         some (toString resp.status ++ " " ++ resp.statusText) ∧
       (getCountry P s ip now (Upstream.response resp body)).result.meta.status =
         resp.status) ∧
    (∀ (resp : HttpResponse) (r : ApiResult) (e : ProviderError),
       resp.ok = true → r.error = some e →
       (getCountry ipstackProvider s ip now
           (Upstream.response resp (Except.ok r))).result.error =
         some (jsOrStr e.info (jsOrStr e.type "An unknown error occurred")) ∧
       (getCountry ipstackProvider s ip now
           (Upstream.response resp (Except.ok r))).result.meta.status =
         (if e.type = some "invalid_access_key" then 401 else 400)) ∧
    (∀ (resp : HttpResponse) (r : ApiResult),
       resp.ok = true → r.success = some false →
       (getCountry ipxapiProvider s ip now
           (Upstream.response resp (Except.ok r))).result.meta.status = 400) := by
  have hh := handleRateLimiting_pass s now h1 h2 h3
  refine ⟨?_, ?_, ?_⟩
  · intro P resp body hok hst
    have hst0 : ¬ (resp.status = 0) := by omega
    constructor
    · simp [getCountry, hmiss, jsTruthyStr_none, hh, hok, errorReturn, clientFormatResult,
        formatResult, mkApiError, failureMessage, failureStatus]
    · simp [getCountry, hmiss, jsTruthyStr_none, hh, hok, errorReturn, clientFormatResult,
        formatResult, mkApiError, failureMessage, failureStatus, jsOrNat, hst0]
  · intro resp r e hok hre
    have hv : ipstackProvider.validateResult r =
        some (mkApiError (jsOrStr e.info (jsOrStr e.type "An unknown error occurred"))
          (if e.type = some "invalid_access_key" then 401 else 400)) := by
      simp [ipstackProvider, hre]
    by_cases ht : e.type = some "invalid_access_key"
    · constructor <;>
        simp [getCountry, hmiss, jsTruthyStr_none, hh, hok, hv, ht, errorReturn,
          clientFormatResult, formatResult, mkApiError, failureMessage, failureStatus, jsOrNat]
    · constructor <;>
        simp [getCountry, hmiss, jsTruthyStr_none, hh, hok, hv, ht, errorReturn,
          clientFormatResult, formatResult, mkApiError, failureMessage, failureStatus, jsOrNat]
  · intro resp r hok hs
    have hv : ipxapiProvider.validateResult r =
        some (mkApiError (jsOrStr r.message "An unknown error occurred") 400) := by
      simp [ipxapiProvider, hs]
    simp [getCountry, hmiss, jsTruthyStr_none, hh, hok, hv, errorReturn, clientFormatResult,
      formatResult, mkApiError, failureStatus, jsOrNat]

/-- C8 witness: a 403 transport failure, an invalid-access-key payload error
(401) and an ipxapi payload error (400) at concrete inputs. -/
theorem C8_failure_statuses_witness :
    (getCountry ipstackProvider windowClient "1.2.3.4" 500
        (Upstream.response forbiddenResp (Except.error "x"))).result.error =
      some "403 Forbidden" ∧
    (getCountry ipstackProvider windowClient "1.2.3.4" 500
        (Upstream.response forbiddenResp (Except.error "x"))).result.meta.status = 403 ∧
    (getCountry ipstackProvider windowClient "1.2.3.4" 500
        (Upstream.response okResp (Except.ok invalidKeyResult))).result.meta.status = 401 ∧
    (getCountry ipxapiProvider windowClient "1.2.3.4" 500
        (Upstream.response okResp (Except.ok ipxapiFailResult))).result.meta.status = 400 := by
  have h := C8_failure_statuses windowClient "1.2.3.4" 500 rfl (by decide) (by decide)
    (by decide)
  refine ⟨?_, ?_, ?_, ?_⟩
  · simpa using (h.1 ipstackProvider forbiddenResp (Except.error "x") rfl (by decide)).1
  · exact (h.1 ipstackProvider forbiddenResp (Except.error "x") rfl (by decide)).2
  · simpa [invalidKeyResult, invalidKeyError] using
      (h.2.1 okResp invalidKeyResult invalidKeyError rfl rfl).2
  · exact h.2.2 okResp ipxapiFailResult rfl rfl

/-! ### Claim C3: exhausting the rate limit -/

/-- C3: for a fresh client with positive rate limit N and a positive window,
each of N getCountry calls on pairwise-distinct (hence uncached) IPs inside
one window passes the rate-limit gate, the counter taking the values one
through N (the call after a prefix of length k leaves it at k plus one), and
an additional call with yet another distinct IP inside the window returns the
rate-limit error envelope, message Rate limited, status 429, counters N of N,
without issuing an upstream request. -/
theorem C3_rate_limit_exhaustion (P : Provider) (s0 : ClientState) (c0 : Call)
    (rest : List Call) (cLast : Call)
    (h0count : s0.rateLimitCount = 0) (h0exp : s0.rateLimitExpiry = 0)
    (h0cache : s0.cache = []) (hN : 0 < s0.rateLimit) (htf : 0 < s0.rateLimitTimeframe)
    (hlen : (c0 :: rest).length = s0.rateLimit)
    (hnodup : ((c0 :: rest).map Call.ip).Nodup)
    (hlast : cLast.ip ∉ (c0 :: rest).map Call.ip)
    (hw : ∀ c ∈ rest, c.now ≤ c0.now + s0.rateLimitTimeframe)
    (hwLast : cLast.now ≤ c0.now + s0.rateLimitTimeframe) :
    (∀ pre c post, c0 :: rest = pre ++ c :: post →
       (getCountry P (runCalls P s0 pre) c.ip c.now c.up).fetched = true ∧
       (getCountry P (runCalls P s0 pre) c.ip c.now c.up).state.rateLimitCount =
         pre.length + 1) ∧
    ((getCountry P (runCalls P s0 (c0 :: rest)) cLast.ip cLast.now cLast.up).fetched
        = false ∧
     (getCountry P (runCalls P s0 (c0 :: rest)) cLast.ip cLast.now
         cLast.up).result.error = some "Rate limited" ∧
     (getCountry P (runCalls P s0 (c0 :: rest)) cLast.ip cLast.now
         cLast.up).result.meta.status = 429 ∧
     (getCountry P (runCalls P s0 (c0 :: rest)) cLast.ip cLast.now
         cLast.up).result.meta.rateLimitCount = some s0.rateLimit ∧
     (getCountry P (runCalls P s0 (c0 :: rest)) cLast.ip cLast.now
         cLast.up).result.meta.rateLimit = some s0.rateLimit) := by
  have hmiss0 : ∀ k, mapGet s0.cache k = none := by
    intro k
    rw [h0cache]
    rfl
  have hexp0 : isRateLimitExpired s0 c0.now = true := by
    simp [isRateLimitExpired, h0exp]
  obtain ⟨f0, cnt0, exp0, lim0, tf0, url0, tok0, cache0⟩ :=
    getCountry_first P s0 c0.ip c0.now c0.up (hmiss0 c0.ip) hexp0 hN
  have hEne : ¬ (c0.now + s0.rateLimitTimeframe = 0) := by omega
  simp only [List.map_cons, List.nodup_cons] at hnodup
  obtain ⟨hn1, hn2⟩ := hnodup
  simp only [List.map_cons, List.mem_cons] at hlast
  push_neg at hlast
  obtain ⟨hlast1, hlast2⟩ := hlast
  constructor
  · intro pre c post heq
    rcases pre with _ | ⟨p0, pre'⟩
    · simp only [List.nil_append] at heq
      injection heq with hp0 hrest
      subst hp0
      constructor
      · exact f0
      · simpa using cnt0
    · simp only [List.cons_append] at heq
      injection heq with hp0 hrest
      subst hp0
      have hn1a : c0.ip ∉ pre'.map Call.ip := by
        intro hmem
        apply hn1
        rw [hrest, List.map_append]
        exact List.mem_append_left _ hmem
      have hn1b : c0.ip ≠ c.ip := by
        intro hje
        apply hn1
        rw [hrest, List.map_append, List.map_cons]
        refine List.mem_append_right _ ?_
        rw [hje]
        exact List.mem_cons_self _ _
      have hnd_rest := hn2
      rw [hrest, List.map_append, List.map_cons] at hnd_rest
      obtain ⟨hnd_pre, hnd_cpost, hdisj⟩ := List.nodup_append.mp hnd_rest
      have hc_not_pre : c.ip ∉ pre'.map Call.ip := fun hmem =>
        hdisj hmem (List.mem_cons_self _ _)
      have hr : rest.length = pre'.length + post.length + 1 := by
        rw [hrest]
        simp only [List.length_append, List.length_cons]
        omega
      simp only [List.length_cons] at hlen
      obtain ⟨w1, w2, w3, w4, w5, w6, w7⟩ :=
        runCalls_window P pre' (getCountry P s0 c0.ip c0.now c0.up).state
          (by rw [cnt0, lim0]; omega)
          (by rw [exp0]; exact hEne)
          (by
            intro d hd
            rw [exp0]
            refine hw d ?_
            rw [hrest]
            exact List.mem_append_left _ hd)
          (by
            intro d hd
            have hdne : d.ip ≠ c0.ip := by
              intro hje
              exact hn1a (hje ▸ List.mem_map_of_mem Call.ip hd)
            rw [cache0 d.ip hdne]
            exact hmiss0 d.ip)
          hnd_pre
      have hmissB : mapGet (runCalls P (getCountry P s0 c0.ip c0.now c0.up).state
          pre').cache c.ip = none := by
        rw [w7 c.ip hc_not_pre, cache0 c.ip (Ne.symm hn1b)]
        exact hmiss0 c.ip
      obtain ⟨g1, g2, g3, g4, g5, g6, g7, g8⟩ :=
        getCountry_gate P (runCalls P (getCountry P s0 c0.ip c0.now c0.up).state pre')
          c.ip c.now c.up hmissB
          (by rw [w2, exp0]; exact hEne)
          (by
            rw [w2, exp0]
            refine hw c ?_
            rw [hrest]
            exact List.mem_append_right _ (List.mem_cons_self _ _))
          (by rw [w1, w3, cnt0, lim0]; omega)
      rw [runCalls_cons]
      constructor
      · exact g1
      · rw [g2, w1, cnt0]
        simp only [List.length_cons]
        omega
  · obtain ⟨n1, n2, n3, n4, n5, n6, n7⟩ :=
      runCalls_window P rest (getCountry P s0 c0.ip c0.now c0.up).state
        (by
          rw [cnt0, lim0]
          simp only [List.length_cons] at hlen
          omega)
        (by rw [exp0]; exact hEne)
        (by
          intro d hd
          rw [exp0]
          exact hw d hd)
        (by
          intro d hd
          have hdne : d.ip ≠ c0.ip := by
            intro hje
            exact hn1 (hje ▸ List.mem_map_of_mem Call.ip hd)
          rw [cache0 d.ip hdne]
          exact hmiss0 d.ip)
        hn2
    have hmissN : mapGet (runCalls P (getCountry P s0 c0.ip c0.now c0.up).state
        rest).cache cLast.ip = none := by
      rw [n7 cLast.ip hlast2, cache0 cLast.ip hlast1]
      exact hmiss0 cLast.ip
    have hcN : (runCalls P (getCountry P s0 c0.ip c0.now c0.up).state
        rest).rateLimitCount = s0.rateLimit := by
      rw [n1, cnt0]
      simp only [List.length_cons] at hlen
      omega
    have h429 := getCountry_429 P
      (runCalls P (getCountry P s0 c0.ip c0.now c0.up).state rest)
      cLast.ip cLast.now cLast.up hmissN
      (by rw [n2, exp0]; exact hEne)
      (by rw [n2, exp0]; exact hwLast)
      (by rw [hcN, n3, lim0])
    rw [runCalls_cons, h429]
    refine ⟨rfl, rfl, rfl, ?_, ?_⟩
    · rw [hcN]
    · rw [n3, lim0]

/-- C3 witness: with a limit of one, the first call passes the gate and the
second distinct-IP call inside the window is rejected with the 429 envelope. -/
theorem C3_rate_limit_exhaustion_witness :
    (getCountry ipstackProvider (mkClient "b" "t" 1 none) c3first.ip c3first.now
        c3first.up).fetched = true ∧
    (getCountry ipstackProvider (runCalls ipstackProvider (mkClient "b" "t" 1 none)
        [c3first]) c3last.ip c3last.now c3last.up).result.error = some "Rate limited" ∧
    (getCountry ipstackProvider (runCalls ipstackProvider (mkClient "b" "t" 1 none)
        [c3first]) c3last.ip c3last.now c3last.up).result.meta.status = 429 ∧
    (getCountry ipstackProvider (runCalls ipstackProvider (mkClient "b" "t" 1 none)
        [c3first]) c3last.ip c3last.now c3last.up).result.meta.rateLimitCount = some 1 := by
  have h := C3_rate_limit_exhaustion ipstackProvider (mkClient "b" "t" 1 none) c3first []
    c3last rfl rfl rfl (by decide) (by decide) rfl (by decide) (by decide)
    (by intro c hc; simp at hc) (by decide)
  exact ⟨(h.1 [] c3first [] rfl).1, h.2.2.1, h.2.2.2.1, h.2.2.2.2.1⟩
